import Mathlib

/-!
Verification development for the pyrs990 core: a shallow embedding of the
index join (`index.py`), the memoized index builders (`annual_record.py`,
`bmf_record.py`), the caching document fetcher (`downloader.py`, `cache.py`),
the XML querier and Filing extraction (`querier.py`, `filing.py`), and the
lazy result pipeline (`result.py`).

Python dicts are modelled as insertion-ordered association lists (assignment
to an existing key replaces the value in place, `.values()` iterates in
insertion order).  In-place mutation is modelled by explicit state passing;
exceptions by `Except`; the `while` loop in `Querier.from_file` by a
fuel-indexed function.
-/

namespace Pyrs990

/-! ## Association-list model of Python dicts -/

def lookupD {κ α : Type} [DecidableEq κ] : List (κ × α) → κ → Option α
  | [], _ => none
  | (k, v) :: rest, key => if k = key then some v else lookupD rest key

def insertD {κ α : Type} [DecidableEq κ] : List (κ × α) → κ → α → List (κ × α)
  | [], key, val => [(key, val)]
  | (k, v) :: rest, key, val =>
    if k = key then (k, val) :: rest else (k, v) :: insertD rest key val

def keysD {κ α : Type} (d : List (κ × α)) : List κ := d.map Prod.fst

theorem lookupD_insertD_self {κ α : Type} [DecidableEq κ]
    (d : List (κ × α)) (k : κ) (v : α) : lookupD (insertD d k v) k = some v := by
  induction d with
  | nil => simp [insertD, lookupD]
  | cons p rest ih =>
    obtain ⟨k', v'⟩ := p
    by_cases h : k' = k
    · subst h; simp [insertD, lookupD]
    · simp [insertD, lookupD, h, ih]

/-! ## Record types (annual_record.py / bmf_record.py) -/

/-- One row of an annual index, `AnnualRecord` in `annual_record.py`. -/
structure AnnualRecord where
  return_id : String
  filing_type : String
  ein : String
  tax_period : String
  sub_date : String
  taxpayer_name : String
  return_type : String
  dln : String
  object_id : String
deriving DecidableEq, Repr

/-- One row of a BMF index, `BMFRecord` in `bmf_record.py`. -/
structure BMFRecord where
  ein : String
  name : String
  ico : String
  street : String
  city : String
  state : String
  zip : String
  group : String
  subsection : String
  affiliation : String
  classification : String
  ruling : String
  deductibility : String
  foundation : String
  activity : String
  organization : String
  status : String
  tax_period : String
  asset_cd : String
  income_cd : String
  filing_req_cd : String
  pf_filing_req_cd : String
  acct_pd : String
  asset_amt : String
  income_amt : String
  revenue_amt : String
  ntee_cd : String
  sort_name : String
deriving DecidableEq, Repr

/-- `AnnualIndex = Dict[EIN, AnnualRecord]`, keyed by EIN string. -/
abbrev AnnualIndex : Type := List (String × AnnualRecord)

/-- `BMFIndex = Dict[EIN, BMFRecord]`, keyed by EIN string. -/
abbrev BMFIndex : Type := List (String × BMFRecord)

/-- Well-formedness guaranteed by the index builders: keys are distinct and
each entry's key equals its record's `ein` field. -/
def wfAnnualB (a : AnnualIndex) : Bool :=
  (keysD a).Nodup && a.all fun p => p.1 = p.2.ein

def wfBMFB (b : BMFIndex) : Bool :=
  (keysD b).Nodup && b.all fun p => p.1 = p.2.ein

/-! ## Composite index (index.py) -/

/-- `IndexRecord`: an annual record and a BMF record for the same organization. -/
structure IndexRecord where
  annual_record : AnnualRecord
  bmf_record : BMFRecord
deriving DecidableEq, Repr

/-- An `IndexFilter` callback.  Python stores filters in a `set` whose
membership test compares function objects by identity; the `fid` field models
that identity, `pred` the callable itself. -/
structure NamedFilter where
  fid : Nat
  pred : IndexRecord → Bool

/-- The short-circuiting filter loop in `Index.__iter__` (lines 100-104):
`passed = True; for cb in filters: if not cb(r): passed = False; break`. -/
def runFilters : List NamedFilter → IndexRecord → Bool
  | [], _ => true
  | f :: rest, r => if f.pred r then runFilters rest r else false

/-- Evaluation trace of the same loop: which callbacks are invoked, in order,
with their results.  Evaluation stops after the first `false`. -/
def filterTrace : List NamedFilter → IndexRecord → List (Nat × Bool)
  | [], _ => []
  | f :: rest, r =>
    if f.pred r then (f.fid, true) :: filterTrace rest r else [(f.fid, false)]

/-- Mutable state of an `Index` object (class `Index` in `index.py`).
`filters` holds the filter set in registration order; the set's actual
iteration order is an arbitrary permutation of it (Python `set` order is
unspecified), threaded explicitly where it matters. -/
structure IndexState where
  annual_indices : List AnnualIndex
  annual_years : List Int
  bmf_indices : List BMFIndex
  bmf_regions : List String
  filters : List NamedFilter
  length_memo : Option Nat

/-- `Index.__iter__` with an explicit iteration order `ord` for the filter
set: for every annual index, for every BMF index, for every annual record,
look up the EIN in the BMF index (skip if absent), then run the filter loop. -/
def iterIndexOrd (s : IndexState) (ord : List NamedFilter) : List IndexRecord :=
  s.annual_indices.flatMap fun annual_index =>
    s.bmf_indices.flatMap fun bmf_index =>
      (annual_index.map Prod.snd).filterMap fun annual_record =>
        match lookupD bmf_index annual_record.ein with
        | none => none
        | some bmf_record =>
          let index_record : IndexRecord := ⟨annual_record, bmf_record⟩
          if runFilters ord index_record then some index_record else none

/-- `Index.__iter__` with the filter set iterated in registration order. -/
def iterIndex (s : IndexState) : List IndexRecord := iterIndexOrd s s.filters

/-- `Index.__len__`: return the memoized length if present, otherwise count
by full iteration and memoize. -/
def lenIndex (s : IndexState) : Nat × IndexState :=
  match s.length_memo with
  | some n => (n, s)
  | none =>
    let length := (iterIndex s).length
    (length, { s with length_memo := some length })

/-- `Index.add_annual_index`: no-op when the year is already registered. -/
def addAnnualIndex (s : IndexState) (year : Int) (annual_index : AnnualIndex) :
    IndexState :=
  if year ∈ s.annual_years then s
  else { s with length_memo := none,
                annual_indices := s.annual_indices ++ [annual_index],
                annual_years := year :: s.annual_years }

/-- `Index.add_bmf_index`: no-op when the region is already registered. -/
def addBMFIndex (s : IndexState) (region : String) (bmf_index : BMFIndex) :
    IndexState :=
  if region ∈ s.bmf_regions then s
  else { s with length_memo := none,
                bmf_indices := s.bmf_indices ++ [bmf_index],
                bmf_regions := region :: s.bmf_regions }

/-- `Index.add_filter`: set insertion (identity-keyed), no-op if present. -/
def addFilter (s : IndexState) (cb : NamedFilter) : IndexState :=
  if s.filters.any fun g => g.fid == cb.fid then s
  else { s with length_memo := none, filters := s.filters ++ [cb] }

/-- `Index.remove_filter`: set removal, no-op if absent. -/
def removeFilter (s : IndexState) (cb : NamedFilter) : IndexState :=
  if s.filters.any fun g => g.fid == cb.fid then
    { s with length_memo := none,
             filters := s.filters.filter fun g => !(g.fid == cb.fid) }
  else s

/-- `Index.remove_index` on an annual index argument (`list.remove` removes
the first equal element). -/
def removeIndexA (s : IndexState) (index : AnnualIndex) : IndexState :=
  if index ∈ s.annual_indices then
    { s with length_memo := none,
             annual_indices := s.annual_indices.erase index }
  else s

/-- `Index.remove_index` on a BMF index argument. -/
def removeIndexB (s : IndexState) (index : BMFIndex) : IndexState :=
  if index ∈ s.bmf_indices then
    { s with length_memo := none, bmf_indices := s.bmf_indices.erase index }
  else s

/-- Memoization invariant of `Index._length`: if a length is memoized, it is
the length of a full iteration in the current state. -/
def memoOK (s : IndexState) : Bool :=
  match s.length_memo with
  | none => true
  | some n => n == (iterIndex s).length

/-! ## Lemmas about the dict model -/

theorem mem_keysD_iff_isSome {α : Type} (d : List (String × α)) (e : String) :
    e ∈ keysD d ↔ (lookupD d e).isSome := by
  induction d with
  | nil => simp [keysD, lookupD]
  | cons p rest ih =>
    obtain ⟨k, v⟩ := p
    by_cases h : k = e
    · subst h; simp [keysD, lookupD]
    · simp only [keysD, List.map_cons, List.mem_cons, lookupD, if_neg h]
      constructor
      · rintro (rfl | hm)
        · exact absurd rfl h
        · exact (ih.mp hm)
      · intro hs; exact Or.inr (ih.mpr hs)

theorem lookupD_eq_of_mem {α : Type} {d : List (String × α)} {k : String}
    {v : α} (hn : (keysD d).Nodup) (hm : (k, v) ∈ d) : lookupD d k = some v := by
  induction d with
  | nil => cases hm
  | cons p rest ih =>
    obtain ⟨k', v'⟩ := p
    simp only [keysD, List.map_cons, List.nodup_cons] at hn
    rcases List.mem_cons.mp hm with h | h
    · cases h; simp [lookupD]
    · have hk : k ∈ keysD rest := List.mem_map.mpr ⟨(k, v), h, rfl⟩
      have hne : k' ≠ k := fun he => hn.1 (he ▸ hk)
      simp only [lookupD, if_neg hne]
      exact ih hn.2 h

theorem mem_of_lookupD_eq {α : Type} {d : List (String × α)} {k : String}
    {v : α} (h : lookupD d k = some v) : (k, v) ∈ d := by
  induction d with
  | nil => simp [lookupD] at h
  | cons p rest ih =>
    obtain ⟨k', v'⟩ := p
    by_cases he : k' = k
    · subst he
      simp [lookupD] at h
      subst h
      exact List.mem_cons_self _ _
    · simp only [lookupD, if_neg he] at h
      exact List.mem_cons_of_mem _ (ih h)

/-! ## The inner join -/

/-- The record sequence produced by one (annual index, BMF index) pair with
no filters active (the body of the two inner loops of `Index.__iter__`). -/
def joinAB (A : AnnualIndex) (B : BMFIndex) : List IndexRecord :=
  (A.map Prod.snd).filterMap fun annual_record =>
    match lookupD B annual_record.ein with
    | none => none
    | some bmf_record => some ⟨annual_record, bmf_record⟩

theorem iterIndex_single_nofilter (A : AnnualIndex) (B : BMFIndex)
    (years : List Int) (regions : List String) (memo : Option Nat) :
    iterIndex ⟨[A], years, [B], regions, [], memo⟩ = joinAB A B := by
  simp only [iterIndex, iterIndexOrd, joinAB, List.flatMap_cons,
    List.flatMap_nil, List.append_nil]
  congr 1

theorem joinAB_map_ein {A : AnnualIndex} (B : BMFIndex)
    (hk : ∀ p ∈ A, p.1 = p.2.ein) :
    (joinAB A B).map (fun r => r.annual_record.ein) =
      (keysD A).filter fun e => (lookupD B e).isSome := by
  induction A with
  | nil => simp [joinAB, keysD]
  | cons p rest ih =>
    obtain ⟨k, ar⟩ := p
    have hke : k = ar.ein := hk (k, ar) (List.mem_cons_self _ _)
    have ih' := ih fun q hq => hk q (List.mem_cons_of_mem _ hq)
    subst hke
    simp only [joinAB, keysD, List.map_cons, List.filterMap_cons]
    cases hb : lookupD B ar.ein with
    | none =>
      simpa [joinAB, keysD, List.filter_cons, hb] using ih'
    | some br =>
      simpa [joinAB, keysD, List.filter_cons, hb] using ih'

theorem joinAB_mem {A : AnnualIndex} {B : BMFIndex} {r : IndexRecord}
    (hkA : ∀ p ∈ A, p.1 = p.2.ein) (hnA : (keysD A).Nodup)
    (hkB : ∀ p ∈ B, p.1 = p.2.ein) (hr : r ∈ joinAB A B) :
    lookupD A r.annual_record.ein = some r.annual_record ∧
      lookupD B r.annual_record.ein = some r.bmf_record ∧
      r.bmf_record.ein = r.annual_record.ein := by
  have hBein : ∀ {e : String} {br : BMFRecord}, lookupD B e = some br →
      br.ein = e := by
    intro e br h
    exact (hkB (e, br) (mem_of_lookupD_eq h)).symm
  induction A with
  | nil => simp [joinAB] at hr
  | cons p rest ih =>
    obtain ⟨k, ar⟩ := p
    have hke : k = ar.ein := hkA (k, ar) (List.mem_cons_self _ _)
    subst hke
    simp only [keysD, List.map_cons, List.nodup_cons] at hnA
    simp only [joinAB, List.map_cons, List.filterMap_cons] at hr
    cases hb : lookupD B ar.ein with
    | none =>
      rw [hb] at hr
      have htail := ih (fun q hq => hkA q (List.mem_cons_of_mem _ hq)) hnA.2 hr
      refine ⟨?_, htail.2⟩
      have hmem : r.annual_record.ein ∈ keysD rest :=
        (mem_keysD_iff_isSome rest _).mpr (by rw [htail.1]; rfl)
      have hne : ar.ein ≠ r.annual_record.ein := fun he => hnA.1 (he ▸ hmem)
      simpa [lookupD, if_neg hne] using htail.1
    | some br =>
      rw [hb] at hr
      rcases List.mem_cons.mp hr with h | h
      · subst h
        exact ⟨by simp [lookupD], by simpa [lookupD] using hb, hBein hb⟩
      · have htail := ih (fun q hq => hkA q (List.mem_cons_of_mem _ hq)) hnA.2 h
        refine ⟨?_, htail.2⟩
        have hmem : r.annual_record.ein ∈ keysD rest :=
          (mem_keysD_iff_isSome rest _).mpr (by rw [htail.1]; rfl)
        have hne : ar.ein ≠ r.annual_record.ein := fun he => hnA.1 (he ▸ hmem)
        simpa [lookupD, if_neg hne] using htail.1

/-- Claim C1: with one annual index `A` and one BMF index `B` registered and no
filters active, iterating the composite index yields exactly one record per
OrgId present in both `A` and `B` (and none for OrgIds present in only one),
pairing `A`'s annual record with `B`'s BMF record for that OrgId, with equal
`ein` fields on the two halves. -/
theorem composite_index_inner_join (A : AnnualIndex) (B : BMFIndex)
    (years : List Int) (regions : List String) (memo : Option Nat)
    (hA : wfAnnualB A = true) (hB : wfBMFB B = true) :
    ((iterIndex ⟨[A], years, [B], regions, [], memo⟩).map
        (fun r => r.annual_record.ein) =
      (keysD A).filter fun e => (lookupD B e).isSome) ∧
    (∀ r ∈ iterIndex ⟨[A], years, [B], regions, [], memo⟩,
      lookupD A r.annual_record.ein = some r.annual_record ∧
      lookupD B r.annual_record.ein = some r.bmf_record ∧
      r.bmf_record.ein = r.annual_record.ein) ∧
    ∀ e, ((iterIndex ⟨[A], years, [B], regions, [], memo⟩).map
        (fun r => r.annual_record.ein)).count e =
      if e ∈ keysD A ∧ e ∈ keysD B then 1 else 0 := by
  rw [iterIndex_single_nofilter A B years regions memo]
  simp only [wfAnnualB, wfBMFB, Bool.and_eq_true, decide_eq_true_eq,
    List.all_eq_true] at hA hB
  obtain ⟨hnA, hkA'⟩ := hA
  obtain ⟨_, hkB'⟩ := hB
  have hkA : ∀ p ∈ A, p.1 = p.2.ein := fun p hp => hkA' p hp
  have hkB : ∀ p ∈ B, p.1 = p.2.ein := fun p hp => hkB' p hp
  refine ⟨joinAB_map_ein B hkA, fun r hr => joinAB_mem hkA hnA hkB hr, ?_⟩
  intro e
  rw [joinAB_map_ein B hkA]
  by_cases hmem : e ∈ keysD A ∧ e ∈ keysD B
  · rw [if_pos hmem]
    have hq : (lookupD B e).isSome := (mem_keysD_iff_isSome B e).mp hmem.2
    have hf : e ∈ (keysD A).filter (fun e => (lookupD B e).isSome) :=
      List.mem_filter.mpr ⟨hmem.1, hq⟩
    exact List.count_eq_one_of_mem (hnA.filter _) hf
  · rw [if_neg hmem]
    refine List.count_eq_zero.mpr ?_
    intro hf
    rcases List.mem_filter.mp hf with ⟨h1, h2⟩
    exact hmem ⟨h1, (mem_keysD_iff_isSome B e).mpr h2⟩

/-! ## Sample data for witnesses -/

def arSample (e oid : String) : AnnualRecord :=
  ⟨"rid", "EFILE", e, "201812", "2019-01-01", "ORG " ++ e, "990", "dln", oid⟩

def brSample (e : String) : BMFRecord :=
  ⟨e, "ORG " ++ e, "ico", "street", "HELENA", "MT", "59601", "0", "03", "3",
    "1000", "195301", "1", "15", "059", "1", "01", "201812", "3", "3", "01",
    "0", "12", "100", "50", "40", "B25", "SORT " ++ e⟩

def cA : AnnualIndex := [("111", arSample "111" "obj111"),
                         ("222", arSample "222" "obj222")]

def cB : BMFIndex := [("111", brSample "111"), ("333", brSample "333")]

def cState : IndexState := ⟨[cA], [2018], [cB], ["mt"], [], none⟩

theorem composite_index_inner_join_witness :
    wfAnnualB cA = true ∧ wfBMFB cB = true ∧
    ((iterIndex cState).map fun r => r.annual_record.ein).count "111" = 1 ∧
    ((iterIndex cState).map fun r => r.annual_record.ein).count "222" = 0 ∧
    ((iterIndex cState).map fun r => r.annual_record.ein).count "333" = 0 := by
  refine ⟨by decide, by decide, ?_, ?_, ?_⟩
  · have h := (composite_index_inner_join cA cB [2018] ["mt"] none
      (by decide) (by decide)).2.2 "111"
    rw [if_pos (by decide : ("111" ∈ keysD cA ∧ "111" ∈ keysD cB))] at h
    exact h
  · have h := (composite_index_inner_join cA cB [2018] ["mt"] none
      (by decide) (by decide)).2.2 "222"
    rw [if_neg (by decide : ¬("222" ∈ keysD cA ∧ "222" ∈ keysD cB))] at h
    exact h
  · have h := (composite_index_inner_join cA cB [2018] ["mt"] none
      (by decide) (by decide)).2.2 "333"
    rw [if_neg (by decide : ¬("333" ∈ keysD cA ∧ "333" ∈ keysD cB))] at h
    exact h

/-! ## Length memoization (Index.__len__ and the mutators) -/

theorem iterIndex_set_memo (s : IndexState) (m : Option Nat) :
    iterIndex { s with length_memo := m } = iterIndex s := rfl

/-- Claim C4: `length()` equals the count of a full iteration in the current state
(assuming the memo invariant, which holds initially and is preserved by every
operation); the count is computed and memoized on the first call, a repeated
call returns the memo without recomputation or state change, and every
mutating call that actually changes the registration/filter state resets the
memo to `None`. -/
theorem index_length_memoization (s : IndexState) (year : Int)
    (a : AnnualIndex) (region : String) (b : BMFIndex) (cb : NamedFilter)
    (hm : memoOK s = true) :
    (lenIndex s).1 = (iterIndex s).length ∧
    (lenIndex s).2.length_memo = some ((iterIndex s).length) ∧
    lenIndex (lenIndex s).2 = ((iterIndex s).length, (lenIndex s).2) ∧
    (year ∉ s.annual_years → (addAnnualIndex s year a).length_memo = none) ∧
    (region ∉ s.bmf_regions → (addBMFIndex s region b).length_memo = none) ∧
    ((s.filters.any fun g => g.fid == cb.fid) = false →
      (addFilter s cb).length_memo = none) ∧
    ((s.filters.any fun g => g.fid == cb.fid) = true →
      (removeFilter s cb).length_memo = none) ∧
    (a ∈ s.annual_indices → (removeIndexA s a).length_memo = none) ∧
    (b ∈ s.bmf_indices → (removeIndexB s b).length_memo = none) ∧
    memoOK (lenIndex s).2 = true ∧
    memoOK (addAnnualIndex s year a) = true ∧
    memoOK (addBMFIndex s region b) = true ∧
    memoOK (addFilter s cb) = true ∧
    memoOK (removeFilter s cb) = true ∧
    memoOK (removeIndexA s a) = true ∧
    memoOK (removeIndexB s b) = true := by
  have hbase : (lenIndex s).1 = (iterIndex s).length ∧
      (lenIndex s).2.length_memo = some ((iterIndex s).length) := by
    cases hmem : s.length_memo with
    | none => simp [lenIndex, hmem]
    | some n =>
      have hn : n = (iterIndex s).length := by
        simpa [memoOK, hmem] using hm
      simp [lenIndex, hmem, hn]
  refine ⟨hbase.1, hbase.2, ?_, ?_, ?_, ?_, ?_, ?_, ?_, ?_, ?_, ?_, ?_, ?_,
    ?_, ?_⟩
  · cases hmem : s.length_memo with
    | none => simp [lenIndex, hmem]
    | some n =>
      have hn : n = (iterIndex s).length := by
        simpa [memoOK, hmem] using hm
      simp [lenIndex, hmem, hn]
  · intro h; simp [addAnnualIndex, h]
  · intro h; simp [addBMFIndex, h]
  · intro h; simp [addFilter, h]
  · intro h; simp [removeFilter, h]
  · intro h; simp [removeIndexA, h]
  · intro h; simp [removeIndexB, h]
  · cases hmem : s.length_memo with
    | none => simp [lenIndex, hmem, memoOK, iterIndex_set_memo]
    | some n =>
      have hn : n = (iterIndex s).length := by
        simpa [memoOK, hmem] using hm
      simp [lenIndex, hmem, memoOK, hn]
  · by_cases h : year ∈ s.annual_years
    · simpa [addAnnualIndex, h] using hm
    · simp [addAnnualIndex, h, memoOK]
  · by_cases h : region ∈ s.bmf_regions
    · simpa [addBMFIndex, h] using hm
    · simp [addBMFIndex, h, memoOK]
  · by_cases h : (s.filters.any fun g => g.fid == cb.fid) = true
    · simpa [addFilter, h] using hm
    · simp only [Bool.not_eq_true] at h
      simp [addFilter, h, memoOK]
  · by_cases h : (s.filters.any fun g => g.fid == cb.fid) = true
    · simp [removeFilter, h, memoOK]
    · simp only [Bool.not_eq_true] at h
      simpa [removeFilter, h] using hm
  · by_cases h : a ∈ s.annual_indices
    · simp [removeIndexA, h, memoOK]
    · simpa [removeIndexA, h] using hm
  · by_cases h : b ∈ s.bmf_indices
    · simp [removeIndexB, h, memoOK]
    · simpa [removeIndexB, h] using hm

def cFilter : NamedFilter := ⟨7, fun r => r.annual_record.return_type == "990"⟩

theorem index_length_memoization_witness :
    memoOK cState = true ∧
    (lenIndex cState).1 = 1 ∧
    lenIndex (lenIndex cState).2 = (1, (lenIndex cState).2) ∧
    (addFilter cState cFilter).length_memo = none ∧
    (addAnnualIndex cState 2019 cA).length_memo = none := by
  have h := index_length_memoization cState 2019 cA "xx" cB cFilter rfl
  have hlen : (iterIndex cState).length = 1 := rfl
  refine ⟨rfl, ?_, ?_, ?_, ?_⟩
  · rw [h.1, hlen]
  · rw [h.2.2.1, hlen]
  · exact h.2.2.2.2.2.1 rfl
  · exact h.2.2.2.1 (by decide)

/-! ## Filter evaluation order (C5) -/

theorem runFilters_eq_all (fs : List NamedFilter) (r : IndexRecord) :
    runFilters fs r = fs.all fun f => f.pred r := by
  induction fs with
  | nil => rfl
  | cons f rest ih =>
    cases hf : f.pred r <;> simp [runFilters, hf, ih, List.all_cons]

theorem all_perm {α : Type} {l₁ l₂ : List α} (h : l₁.Perm l₂) (p : α → Bool) :
    l₁.all p = l₂.all p := by
  induction h with
  | nil => rfl
  | cons x _ ih => simp [List.all_cons, ih]
  | swap x y l => simp [List.all_cons, Bool.and_left_comm]
  | trans _ _ ih₁ ih₂ => rw [ih₁, ih₂]

/-- Claim C5 (amended): during iteration each candidate record is tested against
the active predicates in the filter set's iteration order — an arbitrary
permutation of registration order, since Python `set` iteration order is
unspecified — short-circuiting on the first failing predicate (the trace
ends there and later predicates are not evaluated), and the record is
yielded iff all predicates pass, a decision independent of that order. -/
theorem composite_filter_evaluation (s : IndexState)
    (ord pre post : List NamedFilter) (r : IndexRecord) (g : NamedFilter)
    (hperm : ord.Perm s.filters) :
    (runFilters ord r = s.filters.all fun f => f.pred r) ∧
    (iterIndexOrd s ord = iterIndexOrd s s.filters) ∧
    (ord = pre ++ g :: post → (∀ f ∈ pre, f.pred r = true) →
      g.pred r = false →
      filterTrace ord r = (pre.map fun f => (f.fid, true)) ++ [(g.fid, false)]) := by
  have hall : ∀ r' : IndexRecord,
      runFilters ord r' = runFilters s.filters r' := by
    intro r'
    rw [runFilters_eq_all, runFilters_eq_all, all_perm hperm]
  refine ⟨by rw [hall r, runFilters_eq_all], ?_, ?_⟩
  · unfold iterIndexOrd
    simp only [hall]
  · intro hsplit hpre hg
    subst hsplit
    clear hperm hall
    induction pre with
    | nil => simp [filterTrace, hg]
    | cons f rest ih =>
      have hf : f.pred r = true := hpre f (List.mem_cons_self _ _)
      simp only [List.cons_append, filterTrace, hf, if_pos, List.append_eq]
      rw [ih fun f' hf' => hpre f' (List.mem_cons_of_mem _ hf')]
      simp

def fTrue1 : NamedFilter := ⟨1, fun _ => true⟩

def fTrue2 : NamedFilter := ⟨2, fun _ => true⟩

def fFalse3 : NamedFilter := ⟨3, fun _ => false⟩

def cRec : IndexRecord := ⟨arSample "111" "obj111", brSample "111"⟩

/-- State with filters registered in the order `[fTrue1, fFalse3]`. -/
def sFiltered : IndexState := ⟨[cA], [2018], [cB], ["mt"], [fTrue1, fFalse3], none⟩

/-- State with filters registered in the order `[fTrue1, fTrue2]`. -/
def sTwoFilters : IndexState := ⟨[cA], [2018], [cB], ["mt"], [fTrue1, fTrue2], none⟩

/-- Claim C5 counterexample: the filter container is a Python `set`, whose
iteration order is unspecified; `[fTrue2, fTrue1]` is an admissible iteration
order of the set registered as `[fTrue1, fTrue2]`, and under it the
evaluation trace tests fid 2 before fid 1 — not registration order. -/
theorem composite_filter_order_counterexample :
    List.Perm [fTrue2, fTrue1] sTwoFilters.filters ∧
    (filterTrace [fTrue2, fTrue1] cRec).map Prod.fst ≠
      sTwoFilters.filters.map NamedFilter.fid := by
  constructor
  · exact List.Perm.swap fTrue1 fTrue2 []
  · intro h
    have : ([2, 1] : List Nat) = [1, 2] := h
    simp at this

theorem composite_filter_evaluation_witness :
    List.Perm [fTrue1, fFalse3] sFiltered.filters ∧
    runFilters [fTrue1, fFalse3] cRec =
      sFiltered.filters.all (fun f => f.pred cRec) ∧
    filterTrace [fTrue1, fFalse3] cRec = [(1, true), (3, false)] ∧
    iterIndexOrd sFiltered [fTrue1, fFalse3] = [] := by
  have h := composite_filter_evaluation sFiltered [fTrue1, fFalse3]
    [fTrue1] [] cRec fFalse3 (List.Perm.refl _)
  refine ⟨List.Perm.refl _, h.1, ?_, ?_⟩
  · have ht := h.2.2 rfl (by decide) rfl
    simpa using ht
  · rw [h.2.1]; rfl

/-! ## Tabular parsing and the memoized index builders
(annual_record.py / bmf_record.py) -/

/-- A `csv.DictReader` row: header name ↦ cell text. -/
abbrev CsvRow : Type := List (String × String)

/-- `ANNUAL_FIELD_NAMES` from annual_record.py. -/
def ANNUAL_FIELD_NAMES : List String :=
  ["RETURN_ID", "FILING_TYPE", "EIN", "TAX_PERIOD", "SUB_DATE",
   "TAXPAYER_NAME", "RETURN_TYPE", "DLN", "OBJECT_ID"]

/-- `BMF_FIELD_NAMES` from bmf_record.py. -/
def BMF_FIELD_NAMES : List String :=
  ["EIN", "NAME", "ICO", "STREET", "CITY", "STATE", "ZIP", "GROUP",
   "SUBSECTION", "AFFILIATION", "CLASSIFICATION", "RULING", "DEDUCTIBILITY",
   "FOUNDATION", "ACTIVITY", "ORGANIZATION", "STATUS", "TAX_PERIOD",
   "ASSET_CD", "INCOME_CD", "FILING_REQ_CD", "PF_FILING_REQ_CD", "ACCT_PD",
   "ASSET_AMT", "INCOME_AMT", "REVENUE_AMT", "NTEE_CD", "SORT_NAME"]

/-- `AnnualRecord.from_dict`: collect the columns of `ANNUAL_FIELD_NAMES` in
order (failing at the first missing one, the `KeyError`, modelled by `none`)
and build the record from them. -/
def annualFromDict (d : CsvRow) : Option AnnualRecord :=
  match ANNUAL_FIELD_NAMES.mapM (lookupD d) with
  | some [return_id, filing_type, ein, tax_period, sub_date, taxpayer_name,
      return_type, dln, object_id] =>
    some ⟨return_id, filing_type, ein, tax_period, sub_date, taxpayer_name,
      return_type, dln, object_id⟩
  | _ => none

/-- `BMFRecord.from_dict`: collect the columns of `BMF_FIELD_NAMES` in
order, failing at the first missing one. -/
def bmfFromDict (d : CsvRow) : Option BMFRecord :=
  match BMF_FIELD_NAMES.mapM (lookupD d) with
  | some [ein, name, ico, street, city, state, zip, group, subsection,
      affiliation, classification, ruling, deductibility, foundation,
      activity, organization, status, tax_period, asset_cd, income_cd,
      filing_req_cd, pf_filing_req_cd, acct_pd, asset_amt, income_amt,
      revenue_amt, ntee_cd, sort_name] =>
    some ⟨ein, name, ico, street, city, state, zip, group, subsection,
      affiliation, classification, ruling, deductibility, foundation,
      activity, organization, status, tax_period, asset_cd, income_cd,
      filing_req_cd, pf_filing_req_cd, acct_pd, asset_amt, income_amt,
      revenue_amt, ntee_cd, sort_name⟩
  | _ => none

/-- The fill loop of `get_annual_index`: `AnnualRecord.from_csv` is a
generator, so parsing and dict insertion interleave row by row; on a
malformed row the `KeyError` propagates with the earlier rows already
inserted.  Returns the dict contents and whether the loop completed. -/
def buildAnnualIndex : List CsvRow → AnnualIndex → AnnualIndex × Bool
  | [], index => (index, true)
  | row :: rest, index =>
    match annualFromDict row with
    | none => (index, false)
    | some record => buildAnnualIndex rest (insertD index record.ein record)

/-- `BMFRecord.from_csv` parses the whole document eagerly into a list
before any insertion happens; `none` models a `KeyError` on any row. -/
def bmfFromCsv (rows : List CsvRow) : Option (List BMFRecord) :=
  rows.mapM bmfFromDict

/-- Module-wide state of `annual_record.py`: the `_annual_indices` memo
table, plus a count of the calls made to `downloader.fetch`. -/
structure AnnualBuilderState where
  table : List (Int × AnnualIndex)
  fetchCount : Nat
deriving DecidableEq, Repr

/-- Module-wide state of `bmf_record.py`. -/
structure BMFBuilderState where
  table : List (String × BMFIndex)
  fetchCount : Nat
deriving DecidableEq, Repr

/-- `get_annual_index`: on a memo hit return the stored index with no fetch;
on a miss the code stores the (empty) shared dict in the module table
*before* fetching, then fetches and parses, populating that same dict in
place.  `doc` is the outcome of fetching this year's document.  The first
component is the call's outcome (`Except` models a propagated exception),
the second the post-call module state; the table entry holds whatever the
shared dict held when the call ended. -/
def get_annual_index (year : Int) (doc : Except String (List CsvRow))
    (s : AnnualBuilderState) :
    Except String AnnualIndex × AnnualBuilderState :=
  match lookupD s.table year with
  | some index => (.ok index, s)
  | none =>
    match doc with
    | .error e => (.error e, ⟨insertD s.table year [], s.fetchCount + 1⟩)
    | .ok rows =>
      match buildAnnualIndex rows [] with
      | (index, true) =>
        (.ok index, ⟨insertD s.table year index, s.fetchCount + 1⟩)
      | (index, false) =>
        (.error "KeyError", ⟨insertD s.table year index, s.fetchCount + 1⟩)

/-- `get_bmf_index`: same store-before-fetch shape; since `from_csv` parses
eagerly, a malformed row leaves the stored shared dict empty. -/
def get_bmf_index (region : String) (doc : Except String (List CsvRow))
    (s : BMFBuilderState) : Except String BMFIndex × BMFBuilderState :=
  match lookupD s.table region with
  | some index => (.ok index, s)
  | none =>
    match doc with
    | .error e => (.error e, ⟨insertD s.table region [], s.fetchCount + 1⟩)
    | .ok rows =>
      match bmfFromCsv rows with
      | none => (.error "KeyError", ⟨insertD s.table region [], s.fetchCount + 1⟩)
      | some records =>
        let index := records.foldl (fun idx r => insertD idx r.ein r) []
        (.ok index, ⟨insertD s.table region index, s.fetchCount + 1⟩)

/-- Claim C2: when a call to an index builder returns an index, a second call with
the same key and the same fetch outcome returns that same index with the
module state unchanged (the stored mapping itself, no re-fetch, no
re-parse), and across the two calls the retrieval source is consulted at
most once. -/
theorem index_builders_memoized (year : Int)
    (docA : Except String (List CsvRow)) (s0 : AnnualBuilderState)
    (idxA : AnnualIndex) (s1 : AnnualBuilderState) (region : String)
    (docB : Except String (List CsvRow)) (t0 : BMFBuilderState)
    (idxB : BMFIndex) (t1 : BMFBuilderState)
    (hA : get_annual_index year docA s0 = (.ok idxA, s1))
    (hB : get_bmf_index region docB t0 = (.ok idxB, t1)) :
    (get_annual_index year docA s1 = (.ok idxA, s1) ∧
      s1.fetchCount ≤ s0.fetchCount + 1) ∧
    (get_bmf_index region docB t1 = (.ok idxB, t1) ∧
      t1.fetchCount ≤ t0.fetchCount + 1) := by
  constructor
  · unfold get_annual_index at hA ⊢
    cases hmemo : lookupD s0.table year with
    | some idx =>
      rw [hmemo] at hA
      obtain ⟨h1, h2⟩ := Prod.mk.injEq .. ▸ hA
      cases h2
      rw [hmemo]
      exact ⟨by rw [← h1], Nat.le_succ_of_le (Nat.le_refl _)⟩
    | none =>
      rw [hmemo] at hA
      cases docA with
      | error e => simp at hA
      | ok rows =>
        simp only at hA
        cases hbuild : buildAnnualIndex rows [] with
        | mk index ok =>
          rw [hbuild] at hA
          cases ok with
          | false => simp at hA
          | true =>
            simp only [Prod.mk.injEq, Except.ok.injEq] at hA
            obtain ⟨h1, h2⟩ := hA
            subst h1
            subst h2
            rw [lookupD_insertD_self]
            exact ⟨rfl, Nat.le_refl _⟩
  · unfold get_bmf_index at hB ⊢
    cases hmemo : lookupD t0.table region with
    | some idx =>
      rw [hmemo] at hB
      obtain ⟨h1, h2⟩ := Prod.mk.injEq .. ▸ hB
      cases h2
      rw [hmemo]
      exact ⟨by rw [← h1], Nat.le_succ_of_le (Nat.le_refl _)⟩
    | none =>
      rw [hmemo] at hB
      cases docB with
      | error e => simp at hB
      | ok rows =>
        simp only at hB
        cases hparse : bmfFromCsv rows with
        | none => rw [hparse] at hB; simp at hB
        | some records =>
          rw [hparse] at hB
          simp only [Prod.mk.injEq, Except.ok.injEq] at hB
          obtain ⟨h1, h2⟩ := hB
          subst h1
          subst h2
          rw [lookupD_insertD_self]
          exact ⟨rfl, Nat.le_refl _⟩

/-- A well-formed annual CSV row whose parse is `arSample "111" "obj111"`. -/
def rowA : CsvRow :=
  [("RETURN_ID", "rid"), ("FILING_TYPE", "EFILE"), ("EIN", "111"),
   ("TAX_PERIOD", "201812"), ("SUB_DATE", "2019-01-01"),
   ("TAXPAYER_NAME", "ORG 111"), ("RETURN_TYPE", "990"), ("DLN", "dln"),
   ("OBJECT_ID", "obj111")]

/-- A well-formed BMF CSV row whose parse is `brSample "111"`. -/
def rowB : CsvRow :=
  [("EIN", "111"), ("NAME", "ORG 111"), ("ICO", "ico"), ("STREET", "street"),
   ("CITY", "HELENA"), ("STATE", "MT"), ("ZIP", "59601"), ("GROUP", "0"),
   ("SUBSECTION", "03"), ("AFFILIATION", "3"), ("CLASSIFICATION", "1000"),
   ("RULING", "195301"), ("DEDUCTIBILITY", "1"), ("FOUNDATION", "15"),
   ("ACTIVITY", "059"), ("ORGANIZATION", "1"), ("STATUS", "01"),
   ("TAX_PERIOD", "201812"), ("ASSET_CD", "3"), ("INCOME_CD", "3"),
   ("FILING_REQ_CD", "01"), ("PF_FILING_REQ_CD", "0"), ("ACCT_PD", "12"),
   ("ASSET_AMT", "100"), ("INCOME_AMT", "50"), ("REVENUE_AMT", "40"),
   ("NTEE_CD", "B25"), ("SORT_NAME", "SORT 111")]

def wIdxA : AnnualIndex := [("111", arSample "111" "obj111")]

def wsA : AnnualBuilderState := ⟨[(2018, wIdxA)], 1⟩

def wIdxB : BMFIndex := [("111", brSample "111")]

def wsB : BMFBuilderState := ⟨[("mt", wIdxB)], 1⟩

theorem index_builders_memoized_witness :
    get_annual_index 2018 (.ok [rowA]) ⟨[], 0⟩ = (.ok wIdxA, wsA) ∧
    get_annual_index 2018 (.ok [rowA]) wsA = (.ok wIdxA, wsA) ∧
    wsA.fetchCount ≤ 0 + 1 ∧
    get_bmf_index "mt" (.ok [rowB]) ⟨[], 0⟩ = (.ok wIdxB, wsB) ∧
    get_bmf_index "mt" (.ok [rowB]) wsB = (.ok wIdxB, wsB) ∧
    wsB.fetchCount ≤ 0 + 1 := by
  have h1 : get_annual_index 2018 (.ok [rowA]) ⟨[], 0⟩ = (.ok wIdxA, wsA) :=
    rfl
  have h2 : get_bmf_index "mt" (.ok [rowB]) ⟨[], 0⟩ = (.ok wIdxB, wsB) := rfl
  have h := index_builders_memoized 2018 (.ok [rowA]) ⟨[], 0⟩ wIdxA wsA "mt"
    (.ok [rowB]) ⟨[], 0⟩ wIdxB wsB h1 h2
  exact ⟨h1, h.1.1, h.1.2, h2, h.2.1, h.2.2⟩

/-- An annual row missing the required EIN column. -/
def badRow : CsvRow :=
  [("RETURN_ID", "rid2"), ("FILING_TYPE", "EFILE"),
   ("TAX_PERIOD", "201812"), ("SUB_DATE", "2019-01-02"),
   ("TAXPAYER_NAME", "ORG 222"), ("RETURN_TYPE", "990"), ("DLN", "dln2"),
   ("OBJECT_ID", "obj222")]

/-- Claim C6 (code bug): the builders store the shared dict in the module-wide
table *before* fetching and parsing, so when parsing fails on a malformed
row (here: year 2018's document has a well-formed first row and a second row
lacking the required EIN column) the failed call leaves the partially built
index memoized for that key, and a second call for the same key returns that
partial index as a success without re-fetching — contradicting the intended
"no index is stored on error" behavior. -/
theorem get_annual_index_partial_memo_bug :
    get_annual_index 2018 (.ok [rowA, badRow]) ⟨[], 0⟩ =
      (.error "KeyError", ⟨[(2018, wIdxA)], 1⟩) ∧
    get_annual_index 2018 (.ok [rowA, badRow]) ⟨[(2018, wIdxA)], 1⟩ =
      (.ok wIdxA, ⟨[(2018, wIdxA)], 1⟩) := ⟨rfl, rfl⟩

/-! ## Cache and HTTP downloader (cache.py / downloader.py) -/

/-- An HTTP response.  `fetch` sets `response.encoding` to the *detected*
(apparent) encoding before reading `response.text`, so `text` here is the
body decoded with the detected encoding. -/
structure HTTPResponse where
  status_code : Nat
  text : String
deriving DecidableEq, Repr

/-- State of a `DirectoryCache` (one file per key, at path
`key + extension`, so keys map to distinct files) together with observation
counters: network requests issued and cache files written. -/
structure FetchState where
  cache : List (String × String)
  requestCount : Nat
  writeCount : Nat
deriving DecidableEq, Repr

/-- `DirectoryCache.get`: read the file for the key if it exists. -/
def cacheGet (cache : List (String × String)) (cache_key : String) :
    Option String :=
  lookupD cache cache_key

/-- `DirectoryCache.put`: write the content to the key's file. -/
def cachePut (cache : List (String × String)) (cache_key content : String) :
    List (String × String) :=
  insertD cache cache_key content

/-- `HTTPDownloader.fetch`: check the cache first; on a miss substitute the
key into the URL template and issue the request; outside the 200-299 status
range raise `DownloaderException(response.text)`; otherwise store the body
under the key and return it.  Returns the outcome (`Except` models the
raised exception) and the post-call state. -/
def HTTPDownloader.fetch (url_template : String → String)
    (remote : String → HTTPResponse) (document : String) (s : FetchState) :
    Except String String × FetchState :=
  match cacheGet s.cache document with
  | some content => (.ok content, s)
  | none =>
    let url := url_template document
    let response := remote url
    let s' : FetchState := { s with requestCount := s.requestCount + 1 }
    if response.status_code < 200 ∨ response.status_code > 299 then
      (.error response.text, s')
    else
      (.ok response.text,
        { s' with cache := cachePut s'.cache document response.text,
                  writeCount := s'.writeCount + 1 })

/-- Claim C3: on a cache hit `fetch` returns the cached content and touches
nothing; on a miss with a successful response it returns the decoded body,
stores it in the cache under the key, and counts one request and one file
write — so a second `fetch` of the same key hits the cache: across both
calls there is exactly one retrieval and one file written, and both calls
return the same content. -/
theorem http_fetch_cache (url_template : String → String)
    (remote : String → HTTPResponse) (document : String) (s : FetchState)
    (c : String) :
    (cacheGet s.cache document = some c →
      HTTPDownloader.fetch url_template remote document s = (.ok c, s)) ∧
    (cacheGet s.cache document = none →
      ¬((remote (url_template document)).status_code < 200 ∨
        (remote (url_template document)).status_code > 299) →
      ∃ s1 : FetchState,
        HTTPDownloader.fetch url_template remote document s =
          (.ok (remote (url_template document)).text, s1) ∧
        s1.cache =
          cachePut s.cache document (remote (url_template document)).text ∧
        s1.requestCount = s.requestCount + 1 ∧
        s1.writeCount = s.writeCount + 1 ∧
        HTTPDownloader.fetch url_template remote document s1 =
          (.ok (remote (url_template document)).text, s1)) := by
  constructor
  · intro hhit
    unfold HTTPDownloader.fetch
    rw [hhit]
  · intro hmiss hok
    refine ⟨⟨cachePut s.cache document (remote (url_template document)).text,
      s.requestCount + 1, s.writeCount + 1⟩, ?_, rfl, rfl, rfl, ?_⟩
    · unfold HTTPDownloader.fetch
      rw [hmiss]
      simp only [if_neg hok]
    · unfold HTTPDownloader.fetch
      rw [show cacheGet
          (cachePut s.cache document (remote (url_template document)).text)
          document = some (remote (url_template document)).text from
        lookupD_insertD_self ..]

def wTemplate (document : String) : String :=
  "https://host/990/" ++ document ++ ".xml"

def wRemoteOK (_url : String) : HTTPResponse := ⟨200, "<Return/>"⟩

def wRemote404 (_url : String) : HTTPResponse := ⟨404, "not found"⟩

theorem http_fetch_cache_witness :
    HTTPDownloader.fetch wTemplate wRemoteOK "k" ⟨[("k", "cached")], 5, 5⟩ =
      (.ok "cached", ⟨[("k", "cached")], 5, 5⟩) ∧
    ∃ s1 : FetchState,
      HTTPDownloader.fetch wTemplate wRemoteOK "obj1" ⟨[], 0, 0⟩ =
        (.ok "<Return/>", s1) ∧
      s1.cache = [("obj1", "<Return/>")] ∧
      s1.requestCount = 1 ∧ s1.writeCount = 1 ∧
      HTTPDownloader.fetch wTemplate wRemoteOK "obj1" s1 =
        (.ok "<Return/>", s1) := by
  constructor
  · exact (http_fetch_cache wTemplate wRemoteOK "k" ⟨[("k", "cached")], 5, 5⟩
      "cached").1 rfl
  · obtain ⟨s1, h1, h2, h3, h4, h5⟩ :=
      (http_fetch_cache wTemplate wRemoteOK "obj1" ⟨[], 0, 0⟩ "").2 rfl
        (by decide)
    exact ⟨s1, h1, h2, h3, h4, h5⟩

/-- Claim C7: on a cache miss, `fetch` fails — with the response body as the
exception message — exactly when the response status is outside 200-299;
the failure is raised after a single request attempt (no retry) and the
cache is unchanged (nothing stored, nothing written). -/
theorem http_fetch_error (url_template : String → String)
    (remote : String → HTTPResponse) (document : String) (s : FetchState)
    (hmiss : cacheGet s.cache document = none) :
    ((∃ e, (HTTPDownloader.fetch url_template remote document s).1 =
        .error e) ↔
      ((remote (url_template document)).status_code < 200 ∨
        (remote (url_template document)).status_code > 299)) ∧
    (((remote (url_template document)).status_code < 200 ∨
        (remote (url_template document)).status_code > 299) →
      HTTPDownloader.fetch url_template remote document s =
        (.error (remote (url_template document)).text,
          { s with requestCount := s.requestCount + 1 })) := by
  have hfail : ((remote (url_template document)).status_code < 200 ∨
      (remote (url_template document)).status_code > 299) →
      HTTPDownloader.fetch url_template remote document s =
        (.error (remote (url_template document)).text,
          { s with requestCount := s.requestCount + 1 }) := by
    intro hbad
    unfold HTTPDownloader.fetch
    rw [hmiss]
    simp only [if_pos hbad]
  refine ⟨⟨?_, fun hbad => ⟨_, by rw [hfail hbad]⟩⟩, hfail⟩
  intro ⟨e, he⟩
  by_contra hok
  unfold HTTPDownloader.fetch at he
  rw [hmiss] at he
  simp only [if_neg hok] at he
  cases he

theorem http_fetch_error_witness :
    (∃ e, (HTTPDownloader.fetch wTemplate wRemote404 "obj1" ⟨[], 0, 0⟩).1 =
      .error e) ∧
    HTTPDownloader.fetch wTemplate wRemote404 "obj1" ⟨[], 0, 0⟩ =
      (.error "not found", ⟨[], 1, 0⟩) := by
  have h := http_fetch_error wTemplate wRemote404 "obj1" ⟨[], 0, 0⟩ rfl
  exact ⟨h.1.mpr (by decide), h.2 (by decide)⟩

/-! ## XML querier (querier.py) -/

/-- An `ElementTree` element: tag in Clark notation
(`\x7buri\x7dlocalname`), optional text, and child elements. -/
inductive XMLElem : Type where
  | node : String → Option String → List XMLElem → XMLElem

def XMLElem.tag : XMLElem → String
  | .node t _ _ => t

def XMLElem.text : XMLElem → Option String
  | .node _ x _ => x

def XMLElem.children : XMLElem → List XMLElem
  | .node _ _ c => c

/-- `Querier._namespaces`: the single fixed default namespace. -/
def QUERIER_NAMESPACES : List (String × String) :=
  [("efile", "http://www.irs.gov/efile")]

/-- Model of Python `str.split(sep)` for a one-character separator (the only
shape the querier uses). -/
def splitOnCharAux (sep : Char) : List Char → List Char → List (List Char)
  | [], acc => [acc.reverse]
  | c :: rest, acc =>
    if c == sep then acc.reverse :: splitOnCharAux sep rest []
    else splitOnCharAux sep rest (c :: acc)

def splitOnChar (s : String) (sep : Char) : List String :=
  (splitOnCharAux sep s.toList []).map List.asString

/-- Model of Python `str.startswith`. -/
def strStartsWithAux : List Char → List Char → Bool
  | _, [] => true
  | [], _ :: _ => false
  | c :: cs, p :: ps => c == p && strStartsWithAux cs ps

def strStartsWith (s pre : String) : Bool :=
  strStartsWithAux s.toList pre.toList

/-- Model of Python `sep.join(parts)`. -/
def joinWith (sep : String) : List String → String
  | [] => ""
  | [x] => x
  | x :: rest => x ++ sep ++ joinWith sep rest

/-- Resolve one `prefix:local` path segment to Clark notation against the
namespaces mapping, as `ElementTree.find` does. -/
def resolveSeg (seg : String) : String :=
  match splitOnChar seg ':' with
  | [p, localname] =>
    match lookupD QUERIER_NAMESPACES p with
    | some uri => "\x7b" ++ uri ++ "\x7d" ++ localname
    | none => seg
  | _ => seg

/-- `ElementTree` path search over child axes: the elements reached from `e`
by following the path segments through children, in document order. -/
def findAllSegs : List String → XMLElem → List XMLElem
  | [], e => [e]
  | seg :: rest, e =>
    (e.children.filter fun c => c.tag == resolveSeg seg).flatMap
      fun c => findAllSegs rest c

/-- `tree.find(full_path, namespaces)`: first element on the path, if any. -/
def treeFind (tree : XMLElem) (full_path : String) : Option XMLElem :=
  (findAllSegs (splitOnChar full_path '/') tree).head?

/-- `Querier._add_namespace`: strip leading slashes (`lstrip("/")`), prefix
the implicit `ReturnData` root unless an explicit root label is present, and
qualify every segment with the `efile` namespace prefix. -/
def add_namespace (path : String) : String :=
  let relative_path := (path.toList.dropWhile fun c => c == '/').asString
  let relative_path :=
    if strStartsWith relative_path "ReturnHeader" ||
        strStartsWith relative_path "ReturnData" then
      relative_path
    else
      "ReturnData/" ++ relative_path
  joinWith "/" ((splitOnChar relative_path '/').map
    fun tag => "efile:" ++ tag)

/-- `Querier.find_str`: `None` when the path does not resolve, otherwise the
element's text (which may itself be absent). -/
def find_str (q : XMLElem) (path : String) : Option String :=
  match treeFind q (add_namespace path) with
  | none => none
  | some element => element.text

/-- Python `int(str)` on the text of an element: surrounding whitespace
allowed, then an optional sign and one or more digits (digit-grouping
underscores are not modelled). -/
def pyDigits (ds : List Char) : Option Int :=
  if ds ≠ [] ∧ ds.all Char.isDigit then
    some (ds.foldl (fun n c => 10 * n + ((c.toNat : Int) - 48)) 0)
  else none

def pyInt (s : String) : Option Int :=
  let cs := s.toList.dropWhile Char.isWhitespace
  let cs := (cs.reverse.dropWhile Char.isWhitespace).reverse
  match cs with
  | '+' :: ds => pyDigits ds
  | '-' :: ds => (pyDigits ds).map fun n => -n
  | ds => pyDigits ds

/-- `Querier.find_int`: missing path stays `none`; present but non-numeric
text raises `ValueError` (modelled as `.error` carrying the raw text). -/
def find_int (q : XMLElem) (path : String) : Except String (Option Int) :=
  match find_str q path with
  | none => .ok none
  | some raw =>
    match pyInt raw with
    | some n => .ok (some n)
    | none => .error raw

/-! ## Filing extraction (filing.py) -/

/-- `two_part_str_factory`: join the two sub-path results with the
separator, omitting absent halves; missing only when both are absent
(an empty join). -/
def two_part_str (q : XMLElem) (path1 path2 sep : String) : Option String :=
  let line1 := find_str q path1
  let line2 := find_str q path2
  let full := joinWith sep (([line1, line2]).filterMap id)
  if full = "" then none else some full

/-- The `Filing` dataclass fields. -/
structure Filing where
  activity_or_mission_description : Option String
  business_name : Option String
  formation_year : Option Int
  gross_receipts : Option Int
  employee_count : Option Int
  principal_officer_name : Option String
  tax_year : Option Int
  us_address : Option String
  us_city_name : Option String
  us_zip_code : Option String
  website_address : Option String
deriving DecidableEq, Repr

/-- `Filing.__init__`: evaluate each declared field's factory in declaration
order; an integer factory on non-numeric text raises, propagating out of the
constructor. -/
def Filing.build (q : XMLElem) : Except String Filing :=
  let activity_or_mission_description :=
    find_str q "/IRS990/ActivityOrMissionDesc"
  let business_name := two_part_str q
    "/ReturnHeader/Filer/BusinessName/BusinessNameLine1Txt"
    "/ReturnHeader/Filer/BusinessName/BusinessNameLine2Txt" " "
  match find_int q "/IRS990/FormationYr" with
  | .error e => .error e
  | .ok formation_year =>
  match find_int q "/IRS990/GrossReceiptsAmt" with
  | .error e => .error e
  | .ok gross_receipts =>
  match find_int q "/IRS990/TotalEmployeeCnt" with
  | .error e => .error e
  | .ok employee_count =>
  let principal_officer_name := find_str q "/IRS990/PrincipalOfficerNm"
  match find_int q "/ReturnHeader/TaxYr" with
  | .error e => .error e
  | .ok tax_year =>
  let us_address := two_part_str q "/IRS990/USAddress/AddressLine1Txt"
    "/IRS990/USAddress/AddressLine2Txt" "\n"
  let us_city_name := find_str q "/IRS990/USAddress/CityNm"
  let us_zip_code := find_str q "/IRS990/USAddress/ZIPCd"
  let website_address := find_str q "/IRS990/WebsiteAddressTxt"
  .ok ⟨activity_or_mission_description, business_name, formation_year,
    gross_receipts, employee_count, principal_officer_name, tax_year,
    us_address, us_city_name, us_zip_code, website_address⟩

/-- Per-field extraction rules, mirroring the `field(metadata=...)`
declarations of the `Filing` dataclass. -/
inductive FieldRule : Type where
  | strR : String → FieldRule
  | intR : String → FieldRule
  | twoR : String → String → String → FieldRule
deriving DecidableEq, Repr

/-- The declared `Filing` fields with their extraction rules. -/
def filingFieldRules : List (String × FieldRule) :=
  [("activity_or_mission_description", .strR "/IRS990/ActivityOrMissionDesc"),
   ("business_name",
     .twoR "/ReturnHeader/Filer/BusinessName/BusinessNameLine1Txt"
       "/ReturnHeader/Filer/BusinessName/BusinessNameLine2Txt" " "),
   ("formation_year", .intR "/IRS990/FormationYr"),
   ("gross_receipts", .intR "/IRS990/GrossReceiptsAmt"),
   ("employee_count", .intR "/IRS990/TotalEmployeeCnt"),
   ("principal_officer_name", .strR "/IRS990/PrincipalOfficerNm"),
   ("tax_year", .intR "/ReturnHeader/TaxYr"),
   ("us_address", .twoR "/IRS990/USAddress/AddressLine1Txt"
     "/IRS990/USAddress/AddressLine2Txt" "\n"),
   ("us_city_name", .strR "/IRS990/USAddress/CityNm"),
   ("us_zip_code", .strR "/IRS990/USAddress/ZIPCd"),
   ("website_address", .strR "/IRS990/WebsiteAddressTxt")]

/-- A field's value as the factories produce it. -/
inductive FieldValue : Type where
  | strV : Option String → FieldValue
  | intV : Option Int → FieldValue
deriving DecidableEq, Repr

/-- Evaluate one field's factory against a document. -/
def evalRule (q : XMLElem) : FieldRule → Except String FieldValue
  | .strR p => .ok (.strV (find_str q p))
  | .intR p => (find_int q p).map .intV
  | .twoR p1 p2 sep => .ok (.strV (two_part_str q p1 p2 sep))

/-- The field's underlying structured path resolves in the document (for a
two-part rule: at least one of its sub-paths does). -/
def ruleResolves (q : XMLElem) : FieldRule → Bool
  | .strR p => (treeFind q (add_namespace p)).isSome
  | .intR p => (treeFind q (add_namespace p)).isSome
  | .twoR p1 p2 _ =>
    (treeFind q (add_namespace p1)).isSome ||
      (treeFind q (add_namespace p2)).isSome

/-- The explicit "missing" value of each rule shape. -/
def missingValue : FieldRule → FieldValue
  | .strR _ => .strV none
  | .intR _ => .intV none
  | .twoR _ _ _ => .strV none

theorem find_str_none_of_not_resolves {q : XMLElem} {p : String}
    (h : (treeFind q (add_namespace p)).isSome = false) :
    find_str q p = none := by
  unfold find_str
  cases hf : treeFind q (add_namespace p) with
  | none => rfl
  | some e => rw [hf] at h; simp at h

theorem evalRule_strR_missing {q : XMLElem} {p : String}
    (h : ruleResolves q (.strR p) = false) :
    evalRule q (.strR p) = .ok (missingValue (.strR p)) := by
  simp only [evalRule, missingValue]
  rw [find_str_none_of_not_resolves (by simpa [ruleResolves] using h)]

theorem evalRule_intR_missing {q : XMLElem} {p : String}
    (h : ruleResolves q (.intR p) = false) :
    evalRule q (.intR p) = .ok (missingValue (.intR p)) := by
  simp only [evalRule, missingValue, find_int]
  rw [find_str_none_of_not_resolves (by simpa [ruleResolves] using h)]
  rfl

theorem evalRule_twoR_missing {q : XMLElem} {p1 p2 sep : String}
    (h : ruleResolves q (.twoR p1 p2 sep) = false) :
    evalRule q (.twoR p1 p2 sep) = .ok (missingValue (.twoR p1 p2 sep)) := by
  simp only [ruleResolves, Bool.or_eq_false_iff] at h
  simp only [evalRule, missingValue, two_part_str]
  rw [find_str_none_of_not_resolves h.1, find_str_none_of_not_resolves h.2]
  rfl

/-- Claim C8: for every document and every declared `Filing` field whose
underlying structured path does not resolve in the document, evaluating the
field's factory yields the explicit missing value (`None`) and raises no
error; in particular, whenever the path `/IRS990/FormationYr` is absent,
any successfully constructed `Filing` has `formation_year = None`. -/
theorem filing_absent_path_is_missing (q : XMLElem) (name : String)
    (r : FieldRule) (hmem : (name, r) ∈ filingFieldRules)
    (habs : ruleResolves q r = false) :
    evalRule q r = .ok (missingValue r) ∧
    (∀ f : Filing, ruleResolves q (.intR "/IRS990/FormationYr") = false →
      Filing.build q = .ok f → f.formation_year = none) := by
  constructor
  · simp only [filingFieldRules, List.mem_cons, List.not_mem_nil,
      or_false] at hmem
    rcases hmem with h|h|h|h|h|h|h|h|h|h|h <;>
      (injection h with h1 h2; subst h2) <;>
      first
        | exact evalRule_strR_missing habs
        | exact evalRule_intR_missing habs
        | exact evalRule_twoR_missing habs
  · intro f habsf hbuild
    have hfy : find_int q "/IRS990/FormationYr" = .ok none := by
      unfold find_int
      rw [find_str_none_of_not_resolves (by simpa [ruleResolves] using habsf)]
    unfold Filing.build at hbuild
    rw [hfy] at hbuild
    cases h2 : find_int q "/IRS990/GrossReceiptsAmt" with
    | error e => rw [h2] at hbuild; simp at hbuild
    | ok gross_receipts =>
      rw [h2] at hbuild
      cases h3 : find_int q "/IRS990/TotalEmployeeCnt" with
      | error e => rw [h3] at hbuild; simp at hbuild
      | ok employee_count =>
        rw [h3] at hbuild
        cases h4 : find_int q "/ReturnHeader/TaxYr" with
        | error e => rw [h4] at hbuild; simp at hbuild
        | ok tax_year =>
          rw [h4] at hbuild
          simp only [Except.ok.injEq] at hbuild
          rw [← hbuild]

/-- Clark-notation tag in the fixed `efile` namespace. -/
def clark (t : String) : String :=
  "\x7b" ++ "http://www.irs.gov/efile" ++ "\x7d" ++ t

/-- A filing document with no `/IRS990/FormationYr` element. -/
def wDoc : XMLElem :=
  .node (clark "Return") none
    [.node (clark "ReturnHeader") none
      [.node (clark "TaxYr") (some "2018") []],
     .node (clark "ReturnData") none
      [.node (clark "IRS990") none
        [.node (clark "GrossReceiptsAmt") (some "100") [],
         .node (clark "TotalEmployeeCnt") (some "19") []]]]

def wFiling : Filing :=
  ⟨none, none, none, some 100, some 19, none, some 2018, none, none, none,
    none⟩

theorem filing_absent_path_is_missing_witness :
    ("formation_year", FieldRule.intR "/IRS990/FormationYr") ∈
      filingFieldRules ∧
    ruleResolves wDoc (.intR "/IRS990/FormationYr") = false ∧
    evalRule wDoc (.intR "/IRS990/FormationYr") =
      .ok (missingValue (.intR "/IRS990/FormationYr")) ∧
    Filing.build wDoc = .ok wFiling ∧
    wFiling.formation_year = none := by
  have h := filing_absent_path_is_missing wDoc "formation_year"
    (.intR "/IRS990/FormationYr") (by decide) rfl
  exact ⟨by decide, rfl, h.1, rfl, h.2 wFiling rfl rfl⟩

/-! ## Result pipeline (result.py) -/

/-- The short-circuiting filing filter loop in `Result.__iter__`. -/
def runFilingFilters : List (Filing → Bool) → Filing → Bool
  | [], _ => true
  | cb :: rest, filing =>
    if cb filing then runFilingFilters rest filing else false

/-- `Result`: the downloader and index are external collaborators of the
pipeline; the only state of its own is the filter list. -/
structure ResultPipeline where
  filters : List (Filing → Bool)

/-- `Result.add_filter`: a new pipeline with the extra filter appended;
no document is touched. -/
def ResultPipeline.add_filter (r : ResultPipeline) (cb : Filing → Bool) :
    ResultPipeline :=
  ⟨r.filters ++ [cb]⟩

/-- `Result.__iter__` run against a consumer that pulls at most `budget`
filings: for each composite record in order, fetch the document keyed by its
annual record's `object_id` (logging the id), parse and build the `Filing`
(an exception propagates and ends the iteration), apply the filing filters
short-circuit, and yield on pass — decrementing the remaining demand — until
demand or records run out.  `docs` maps an object id to the parsed document
its fetch yields.  Returns the filings yielded and the fetch log in order. -/
def runResult (docs : String → XMLElem) (filters : List (Filing → Bool)) :
    List IndexRecord → Nat → List Filing × List String
  | _, 0 => ([], [])
  | [], _ + 1 => ([], [])
  | record :: rest, budget + 1 =>
    let oid := record.annual_record.object_id
    match Filing.build (docs oid) with
    | .error _ => ([], [oid])
    | .ok filing =>
      if runFilingFilters filters filing then
        let out := runResult docs filters rest budget
        (filing :: out.1, oid :: out.2)
      else
        let out := runResult docs filters rest (budget + 1)
        (out.1, oid :: out.2)

/-- Claim C9: fetches happen only as iteration advances.  With zero demand (a
consumer that never advances — e.g. one that only constructed the `Result`
or called `add_filter`) no document is fetched; the fetch log is always the
`object_id`s of exactly the prefix of composite records the iteration
advanced through; and pulling less never fetches more: the log under demand
`n` is a prefix of the log under any demand `m ≥ n`. -/
theorem result_pipeline_lazy_fetch (docs : String → XMLElem)
    (filters : List (Filing → Bool)) (records : List IndexRecord)
    (n m : Nat) (hnm : n ≤ m) :
    (runResult docs filters records 0 = ([], [])) ∧
    (∃ k, k ≤ records.length ∧
      (runResult docs filters records n).2 =
        (records.take k).map fun r => r.annual_record.object_id) ∧
    (∃ t, (runResult docs filters records m).2 =
      (runResult docs filters records n).2 ++ t) := by
  refine ⟨by cases records <;> rfl, ?_, ?_⟩
  · clear hnm m
    induction records generalizing n with
    | nil =>
      refine ⟨0, Nat.le_refl _, ?_⟩
      cases n <;> rfl
    | cons record rest ih =>
      cases n with
      | zero => exact ⟨0, Nat.zero_le _, rfl⟩
      | succ n' =>
        cases hb : Filing.build (docs record.annual_record.object_id) with
        | error e =>
          refine ⟨1, by simp, ?_⟩
          simp [runResult, hb]
        | ok filing =>
          cases hp : runFilingFilters filters filing with
          | true =>
            obtain ⟨k, hk, hlog⟩ := ih n'
            refine ⟨k + 1, by simpa using hk, ?_⟩
            simp [runResult, hb, hp, hlog]
          | false =>
            obtain ⟨k, hk, hlog⟩ := ih (n' + 1)
            refine ⟨k + 1, by simpa using hk, ?_⟩
            simp [runResult, hb, hp, hlog]
  · induction records generalizing n m with
    | nil =>
      refine ⟨[], ?_⟩
      cases n <;> cases m <;> rfl
    | cons record rest ih =>
      cases n with
      | zero => exact ⟨(runResult docs filters (record :: rest) m).2, rfl⟩
      | succ n' =>
        cases m with
        | zero => cases hnm
        | succ m' =>
          have hnm' : n' ≤ m' := Nat.le_of_succ_le_succ hnm
          cases hb : Filing.build (docs record.annual_record.object_id) with
          | error e =>
            refine ⟨[], ?_⟩
            simp [runResult, hb]
          | ok filing =>
            cases hp : runFilingFilters filters filing with
            | true =>
              obtain ⟨t, ht⟩ := ih n' m' hnm'
              refine ⟨t, ?_⟩
              simp [runResult, hb, hp, ht]
            | false =>
              obtain ⟨t, ht⟩ := ih (n' + 1) (m' + 1)
                (Nat.succ_le_succ hnm')
              refine ⟨t, ?_⟩
              simp [runResult, hb, hp, ht]

theorem result_pipeline_lazy_fetch_witness :
    runResult (fun _ => wDoc) [] [cRec] 0 = ([], []) ∧
    (runResult (fun _ => wDoc) [] [cRec] 1).2 = ["obj111"] ∧
    (∃ k, k ≤ [cRec].length ∧
      (runResult (fun _ => wDoc) [] [cRec] 1).2 =
        ([cRec].take k).map fun r => r.annual_record.object_id) ∧
    (∃ t, (runResult (fun _ => wDoc) [] [cRec] 2).2 =
      (runResult (fun _ => wDoc) [] [cRec] 1).2 ++ t) := by
  have h := result_pipeline_lazy_fetch (fun _ => wDoc) [] [cRec] 1 2
    (by decide)
  exact ⟨h.1, rfl, h.2.1, h.2.2⟩

/-! ## The BOM-stripping loop of Querier.from_file (C10) -/

/-- The loop `while not content.startswith("<"): content = content[1:]` in
`Querier.from_file`, indexed by fuel: `some content` when the loop exits
within `fuel` iterations, `none` when it is still running.  Python's
`""[1:]` is `""`, so the body leaves empty content unchanged. -/
def stripLoop : Nat → List Char → Option (List Char)
  | 0, _ => none
  | fuel + 1, content =>
    if content.head? = some '<' then some content
    else stripLoop fuel (content.drop 1)

theorem stripLoop_nil : ∀ fuel : Nat, stripLoop fuel [] = none := by
  intro fuel
  induction fuel with
  | zero => rfl
  | succ n ih => simpa [stripLoop] using ih

/-- Claim C10 counterexample: on content with no opening angle bracket — here the
empty string — the stripping loop of `Querier.from_file` never exits: no
amount of fuel makes it finish, so construction does not terminate for every
input text. -/
theorem querier_strip_loop_diverges_on_empty :
    ¬ ∃ fuel : Nat, (stripLoop fuel "".toList).isSome = true := by
  rintro ⟨fuel, h⟩
  rw [show "".toList = [] from rfl, stripLoop_nil] at h
  cases h

/-- Claim C10 (amended): the stripping loop terminates exactly on input texts
containing at least one opening angle bracket; on those it returns, with
enough fuel, the suffix starting at the first one. -/
theorem querier_strip_loop_terminates_iff (content : List Char) :
    (∃ fuel, (stripLoop fuel content).isSome = true) ↔ '<' ∈ content := by
  constructor
  · rintro ⟨fuel, h⟩
    induction fuel generalizing content with
    | zero => cases h
    | succ n ih =>
      by_cases hh : content.head? = some '<'
      · cases content with
        | nil => cases hh
        | cons c rest =>
          simp only [List.head?_cons, Option.some.injEq] at hh
          exact hh ▸ List.mem_cons_self _ _
      · rw [stripLoop, if_neg hh] at h
        have := ih _ h
        cases content with
        | nil => simp at this
        | cons c rest => exact List.mem_cons_of_mem _ (by simpa using this)
  · intro hmem
    induction content with
    | nil => cases hmem
    | cons c rest ih =>
      by_cases hc : c = '<'
      · exact ⟨1, by simp [stripLoop, hc]⟩
      · have hrest : '<' ∈ rest := by
          rcases List.mem_cons.mp hmem with h | h
          · exact absurd h.symm hc
          · exact h
        obtain ⟨fuel, hf⟩ := ih hrest
        refine ⟨fuel + 1, ?_⟩
        rw [stripLoop, if_neg (by simp [hc])]
        simpa using hf

theorem querier_strip_loop_terminates_iff_witness :
    ('<' ∈ "ab<x".toList) ∧
    (∃ fuel, (stripLoop fuel "ab<x".toList).isSome = true) ∧
    stripLoop 3 "ab<x".toList = some "<x".toList := by
  exact ⟨by decide, (querier_strip_loop_terminates_iff "ab<x".toList).mpr
    (by decide), by decide⟩

end Pyrs990
